import Mathlib

/-!
Shallow embedding of the shell line interpreter (src/shell/src/utils.rs,
src/shell/src/main.rs, src/shell/src/error.rs): the character-level
tokenizer (`parse_cmd`, `parse_args`), the redirection extractor
(`handle_redirect`, `create_output_file`) and the builtin actions
(`exit`, `echo`, `type`, `cd`).  Machine I/O (actual file opening,
`process::exit`, `set_current_dir`) is represented by pure data:
an open request carries the path and the `OpenOptions` mode bits, the
`exit` builtin returns a `terminate`/`running` outcome, and `cd`
returns the resolved target path or the error raised before resolving.
-/

namespace Shell

/-- The fixed builtin set (`BUILTINS` in utils.rs and main.rs). -/
def BUILTINS : List String := ["cd", "echo", "exit", "pwd", "type"]

/-- Characters which should be escaped by a backslash inside double quotes
(`ESCAPABLE` in `parse_args`): backslash, dollar, double quote, newline. -/
def ESCAPABLE : List Char := ['\\', '$', '"', '\n']

/-- State of the `parse_cmd` scan: accumulated command characters (reversed),
the two quote flags, whether the terminating unquoted space was reached
(`done`), and the characters left for `parse_args` (reversed).  The Rust
code breaks out of its loop at the unquoted space, leaving the rest of the
iterator to `parse_args`; the `done`/`rest` fields model that hand-off. -/
structure CmdState where
  cmd : List Char
  inSingle : Bool
  inDouble : Bool
  done : Bool
  rest : List Char
deriving DecidableEq

def initCmdState : CmdState := ⟨[], false, false, false, []⟩

/-- One character of the `parse_cmd` loop.  Note: `parse_cmd` has no
backslash handling at all — a backslash falls into the catch-all arm and
is pushed literally. -/
def cmdStep (st : CmdState) (c : Char) : CmdState :=
  if st.done = true then { st with rest := c :: st.rest }
  else if c = '\'' ∧ st.inDouble = false then { st with inSingle := !st.inSingle }
  else if c = '"' ∧ st.inSingle = false then { st with inDouble := !st.inDouble }
  else if c = ' ' ∧ st.inSingle = false ∧ st.inDouble = false then { st with done := true }
  else { st with cmd := c :: st.cmd }

def parseCmdRun (cs : List Char) : CmdState :=
  cs.foldl cmdStep initCmdState

/-- `parse_cmd`: the command word and the characters handed on to
`parse_args`. -/
def parseCmd (cs : List Char) : String × List Char :=
  let st := parseCmdRun cs
  (String.mk st.cmd.reverse, st.rest.reverse)

/-- State of the `parse_args` scan: completed arguments, the current-word
accumulator (reversed), and the three flags of the quote/escape machine. -/
structure ArgState where
  args : List String
  curr : List Char
  inSingle : Bool
  inDouble : Bool
  escapeNext : Bool
deriving DecidableEq

def initArgState : ArgState := ⟨[], [], false, false, false⟩

/-- `save_arg`: push the accumulator to the argument vector when non-empty
and clear it; an empty accumulator is left alone (no empty word is ever
emitted). -/
def saveArg (st : ArgState) : ArgState :=
  if st.curr = [] then st
  else { st with args := st.args ++ [String.mk st.curr.reverse], curr := [] }

/-- One character of the `parse_args` loop, arms in the source's order:
the pending escape is resolved first (inside double quotes a backslash is
re-inserted before a non-escapable character), then quote toggles, the
backslash arms, the word separator, and the catch-all push. -/
def argStep (st : ArgState) (c : Char) : ArgState :=
  if st.escapeNext = true then
    { st with
      curr := if st.inDouble = true ∧ c ∉ ESCAPABLE then c :: '\\' :: st.curr else c :: st.curr,
      escapeNext := false }
  else if c = '\'' ∧ st.inDouble = false then { st with inSingle := !st.inSingle }
  else if c = '"' ∧ st.inSingle = false then { st with inDouble := !st.inDouble }
  else if c = '\\' ∧ st.inSingle = false then { st with escapeNext := !st.escapeNext }
  else if c = '\\' then { st with curr := c :: st.curr }
  else if c = ' ' ∧ st.inSingle = false ∧ st.inDouble = false then saveArg st
  else { st with curr := c :: st.curr }

def parseArgsRun (cs : List Char) : ArgState :=
  cs.foldl argStep initArgState

/-- `parse_args`: run the scan, save the final accumulator, and return
`none` for an empty argument vector (the source wraps the vector in
`Option` exactly this way). -/
def parseArgs (cs : List Char) : Option (List String) :=
  let st := saveArg (parseArgsRun cs)
  if st.args = [] then none else some st.args

/-- Unicode-whitespace trim at both ends (`str::trim` before parsing). -/
def trimChars (cs : List Char) : List Char :=
  ((cs.dropWhile Char.isWhitespace).reverse.dropWhile Char.isWhitespace).reverse

/-- `parse_input`: trim the line, parse the command word, then the
arguments from the remaining characters. -/
def parseInput (input : String) : String × Option (List String) :=
  let cs := trimChars input.data
  let p := parseCmd cs
  (p.1, parseArgs p.2)

/-- The mode bits of `OpenOptions` that `create_output_file` sets:
`append(true).create(true)`, truncate left at its default `false`. -/
structure OpenMode where
  append : Bool
  create : Bool
  truncate : Bool
deriving DecidableEq

def appendCreate : OpenMode := ⟨true, true, false⟩

/-- An open request standing in for the `File` handle: destination path
plus the open mode. -/
abbrev OutFile := String × OpenMode

/-- `create_output_file`: `arg.map(|path| OpenOptions::new().append(true).create(true).open(path)).transpose()` —
with `None` no open is attempted at all (so no I/O error can arise), with
`Some path` the file is opened in append-and-create mode. -/
def createOutputFile (arg : Option String) : Option OutFile :=
  arg.map fun path => (path, appendCreate)

/-- The stdout redirection operator strings of `handle_redirect`. -/
def stdoutOps : List String := [">", "1>", ">>", "1>>"]

/-- The stderr redirection operator strings of `handle_redirect`. -/
def stderrOps : List String := ["2>", "2>>"]

/-- The `while let Some(arg) = iter.next()` loop of `handle_redirect`:
an operator word assigns its stream's file from the next word (assigning
`none` when the iterator is exhausted), any other word is appended to the
clean arguments. -/
def redirectLoop : List String → List String → Option OutFile → Option OutFile →
    List String × Option OutFile × Option OutFile
  | [], cmdArgs, so, se => (cmdArgs, so, se)
  | a :: rest, cmdArgs, so, se =>
    if a ∈ stdoutOps then
      match rest with
      | [] => (cmdArgs, createOutputFile none, se)
      | p :: rest2 => redirectLoop rest2 cmdArgs (createOutputFile (some p)) se
    else if a ∈ stderrOps then
      match rest with
      | [] => (cmdArgs, so, createOutputFile none)
      | p :: rest2 => redirectLoop rest2 cmdArgs so (createOutputFile (some p))
    else redirectLoop rest (cmdArgs ++ [a]) so se

/-- `handle_redirect`: with no argument vector the result is empty; else
the scan over the vector. -/
def handleRedirect (args : Option (List String)) :
    List String × Option OutFile × Option OutFile :=
  match args with
  | none => ([], none, none)
  | some l => redirectLoop l [] none none

/-- The error variants of `ShellError` (error.rs); payloads that are
opaque OS values (`ParseIntError`, `io::Error`) are dropped. -/
inductive ShellError where
  | InvalidExitCode
  | NoArguments
  | TooFewArguments (required : Nat) (received : Nat)
  | CommandNotFound (cmd : String)
  | FileOrDirNotFound (path : String)
  | EnvVarNotFound (var : String)
  | RedirectionError (msg : String)
  | IoError
deriving DecidableEq

/-- The `Display` text of each error variant (payload renderings elided). -/
def ShellError.message : ShellError → String
  | .InvalidExitCode => "invalid exit code"
  | .NoArguments => "arguments are required"
  | .TooFewArguments _ _ => "too few arguments"
  | .CommandNotFound c => c ++ ": not found"
  | .FileOrDirNotFound p => "cd: " ++ p ++ ": No such file or directory"
  | .EnvVarNotFound v => "$" ++ v ++ " not found"
  | .RedirectionError m => m
  | .IoError => "io error"

/-- The `echo` builtin: runs `handle_redirect`, joins the clean arguments
with single spaces and emits them with a trailing newline; the first
component is the stdout destination the line goes to (`none` = the
shell's own stdout). -/
def echo (args : Option (List String)) : Option OutFile × String :=
  let r := handleRedirect args
  (r.2.1, String.intercalate " " r.1 ++ "\n")

/-- The `type` builtin (`type_` in main.rs): `args` of `None` returns
`Ok(())` (modelled as `.ok none`, i.e. success with no output line);
else the first argument is checked against `BUILTINS`, then against the
search path (abstracted as `findExe`); the `TooFewArguments` arm fires
only on an empty vector. -/
def typeBuiltin (findExe : String → Option String) (args : Option (List String)) :
    Except ShellError (Option String) :=
  match args with
  | none => .ok none
  | some argList =>
    match argList.head? with
    | some arg =>
      if arg ∈ BUILTINS then .ok (some (arg ++ " is a shell builtin"))
      else
        match findExe arg with
        | some path => .ok (some (arg ++ " is " ++ path))
        | none => .error (.CommandNotFound arg)
    | none => .error (.TooFewArguments 1 argList.length)

/-- Outcome of the `exit` builtin: `terminate code` models
`process::exit(code)`, `running err` models returning to the REPL with an
optional reported error. -/
inductive ExitAction where
  | terminate (code : Int)
  | running (err : Option ShellError)
deriving DecidableEq

/-- Value of a decimal digit list. -/
def digitsVal (ds : List Char) : Nat :=
  ds.foldl (fun acc c => acc * 10 + (c.toNat - '0'.toNat)) 0

def I32_MIN : Int := -2147483648

def I32_MAX : Int := 2147483647

/-- Rust `i32::from_str`: an optional sign, then one or more ASCII digits,
the value within the i32 range; anything else is a parse error. -/
def parseI32 (s : String) : Option Int :=
  let p : Int × List Char :=
    match s.data with
    | '+' :: rest => (1, rest)
    | '-' :: rest => (-1, rest)
    | cs => (1, cs)
  if p.2 = [] then none
  else if p.2.all Char.isDigit then
    let v : Int := p.1 * (digitsVal p.2 : Int)
    if I32_MIN ≤ v ∧ v ≤ I32_MAX then some v else none
  else none

/-- The `exit` builtin: no argument vector terminates with status 0; a
first argument that parses as an i32 terminates with that status; a
parse failure reports `InvalidExitCode` and the process keeps running. -/
def exitBuiltin (args : Option (List String)) : ExitAction :=
  match args with
  | none => .terminate 0
  | some argList =>
    match argList.head? with
    | some code =>
      match parseI32 code with
      | some c => .terminate c
      | none => .running (some .InvalidExitCode)
    | none => .running none

/-- Unix `Path::is_absolute`: the path begins with the root separator. -/
def pathIsAbsolute (p : String) : Bool :=
  match p.data with
  | c :: _ => c == '/'
  | [] => false

/-- `Path::starts_with("~")` compares whole components: the first
component must be exactly `~`. -/
def startsWithTilde (p : String) : Bool :=
  match p.data with
  | c :: rest => c == '~' && (rest.isEmpty || rest.head? == some '/')
  | [] => false

/-- `strip_prefix("~")`: drop the leading `~` component. -/
def stripTilde (p : String) : String :=
  match p.data with
  | '~' :: '/' :: rest => String.mk rest
  | '~' :: [] => ""
  | _ => p

/-- `PathBuf::join`: an absolute right side replaces the left. -/
def pathJoin (a b : String) : String :=
  if pathIsAbsolute b = true then b
  else if b = "" then a
  else a ++ "/" ++ b

/-- The `cd` builtin up to the `set_current_dir` call: `home` is the
`$HOME` lookup (`env::var` result), `cwd` the current directory, and the
result is the resolved target path or the error raised before resolving.
The very first statement of the source is the `$HOME` lookup with `?`, so
a missing `$HOME` fails before the argument is even inspected. -/
def cdResolve (home : Option String) (cwd : String) (args : Option (List String)) :
    Except ShellError String :=
  match home with
  | none => .error (.EnvVarNotFound "HOME")
  | some h =>
    let path := ((args.bind List.head?).getD h)
    if startsWithTilde path = true then .ok (pathJoin h (stripTilde path))
    else if pathIsAbsolute path = true then .ok path
    else .ok (pathJoin cwd path)

/-- Invariant of the `parse_args` machine: the quote flags are never both
set, and a pending escape never coexists with the single-quote flag. -/
def ArgInv (st : ArgState) : Prop :=
  (st.inSingle && st.inDouble) = false ∧ (st.escapeNext && st.inSingle) = false

/-- Invariant of the `parse_cmd` machine: the quote flags are never both
set. -/
def CmdInv (st : CmdState) : Prop :=
  (st.inSingle && st.inDouble) = false

/-! Helper lemmas about the redirection scan. -/

lemma stderr_not_stdout {a : String} (h : a ∈ stderrOps) : a ∉ stdoutOps := by
  simp only [stderrOps, List.mem_cons, List.not_mem_nil, or_false] at h
  rcases h with rfl | rfl <;> decide

lemma redirectLoop_cons_stdout (a p : String) (rest2 acc : List String)
    (so se : Option OutFile) (h : a ∈ stdoutOps) :
    redirectLoop (a :: p :: rest2) acc so se =
      redirectLoop rest2 acc (some (p, appendCreate)) se := by
  simp [redirectLoop, h, createOutputFile]

lemma redirectLoop_last_stdout (a : String) (acc : List String)
    (so se : Option OutFile) (h : a ∈ stdoutOps) :
    redirectLoop [a] acc so se = (acc, none, se) := by
  simp [redirectLoop, h, createOutputFile]

lemma redirectLoop_cons_stderr (a p : String) (rest2 acc : List String)
    (so se : Option OutFile) (h : a ∈ stderrOps) :
    redirectLoop (a :: p :: rest2) acc so se =
      redirectLoop rest2 acc so (some (p, appendCreate)) := by
  simp [redirectLoop, stderr_not_stdout h, h, createOutputFile]

lemma redirectLoop_last_stderr (a : String) (acc : List String)
    (so se : Option OutFile) (h : a ∈ stderrOps) :
    redirectLoop [a] acc so se = (acc, so, none) := by
  simp [redirectLoop, stderr_not_stdout h, h, createOutputFile]

lemma redirectLoop_cons_other (a : String) (rest acc : List String)
    (so se : Option OutFile) (h1 : a ∉ stdoutOps) (h2 : a ∉ stderrOps) :
    redirectLoop (a :: rest) acc so se = redirectLoop rest (acc ++ [a]) so se := by
  cases rest with
  | nil => simp [redirectLoop, h1, h2]
  | cons p rest2 => simp [redirectLoop, h1, h2]

/-- Every destination the scan ever records carries the append-and-create
open mode, provided the incoming destinations do. -/
theorem redirectLoop_modes :
    ∀ (l acc : List String) (so se : Option OutFile),
      (∀ f : OutFile, so = some f → f.2 = appendCreate) →
      (∀ f : OutFile, se = some f → f.2 = appendCreate) →
      (∀ f : OutFile, (redirectLoop l acc so se).2.1 = some f → f.2 = appendCreate) ∧
      (∀ f : OutFile, (redirectLoop l acc so se).2.2 = some f → f.2 = appendCreate)
  | [], _, _, _, hso, hse => ⟨hso, hse⟩
  | [a], acc, so, se, hso, hse => by
    by_cases h1 : a ∈ stdoutOps
    · rw [redirectLoop_last_stdout a acc so se h1]
      exact ⟨fun f hf => Option.noConfusion hf, hse⟩
    · by_cases h2 : a ∈ stderrOps
      · rw [redirectLoop_last_stderr a acc so se h2]
        exact ⟨hso, fun f hf => Option.noConfusion hf⟩
      · rw [redirectLoop_cons_other a [] acc so se h1 h2]
        exact ⟨hso, hse⟩
  | a :: p :: rest2, acc, so, se, hso, hse => by
    by_cases h1 : a ∈ stdoutOps
    · rw [redirectLoop_cons_stdout a p rest2 acc so se h1]
      exact redirectLoop_modes rest2 acc (some (p, appendCreate)) se
        (fun f hf => by injection hf with h; exact h ▸ rfl) hse
    · by_cases h2 : a ∈ stderrOps
      · rw [redirectLoop_cons_stderr a p rest2 acc so se h2]
        exact redirectLoop_modes rest2 acc so (some (p, appendCreate)) hso
          (fun f hf => by injection hf with h; exact h ▸ rfl)
      · rw [redirectLoop_cons_other a (p :: rest2) acc so se h1 h2]
        exact redirectLoop_modes (p :: rest2) (acc ++ [a]) so se hso hse

/-! Helper lemmas about the tokenizer state machines. -/

@[simp] lemma saveArg_inSingle (st : ArgState) : (saveArg st).inSingle = st.inSingle := by
  unfold saveArg; split <;> rfl

@[simp] lemma saveArg_inDouble (st : ArgState) : (saveArg st).inDouble = st.inDouble := by
  unfold saveArg; split <;> rfl

@[simp] lemma saveArg_escapeNext (st : ArgState) : (saveArg st).escapeNext = st.escapeNext := by
  unfold saveArg; split <;> rfl

lemma argStep_inv {st : ArgState} (c : Char) (h : ArgInv st) : ArgInv (argStep st c) := by
  obtain ⟨h1, h2⟩ := h
  unfold ArgInv argStep
  split_ifs <;> simp_all

lemma argInv_fold (cs : List Char) : ∀ st : ArgState, ArgInv st → ArgInv (cs.foldl argStep st) := by
  induction cs with
  | nil => exact fun _ h => h
  | cons c cs ih => exact fun st h => ih _ (argStep_inv c h)

lemma cmdStep_inv {st : CmdState} (c : Char) (h : CmdInv st) : CmdInv (cmdStep st c) := by
  unfold CmdInv cmdStep at *
  split_ifs <;> simp_all

lemma cmdInv_fold (cs : List Char) : ∀ st : CmdState, CmdInv st → CmdInv (cs.foldl cmdStep st) := by
  induction cs with
  | nil => exact fun _ h => h
  | cons c cs ih => exact fun st h => ih _ (cmdStep_inv c h)

/-- A path whose first character is the root separator does not have `~`
as its first component. -/
lemma absolute_not_tilde (p : String) (h : pathIsAbsolute p = true) :
    startsWithTilde p = false := by
  unfold pathIsAbsolute at h
  unfold startsWithTilde
  cases hd : p.data with
  | nil => rfl
  | cons c t =>
    rw [hd] at h
    have hc : c = '/' := by simpa using h
    subst hc
    rfl

/-! The claims. -/

/-- C1 counterexample: in the input `echo '>' out` the word `>` is
single-quoted, yet the tokenizer strips the quotes and the redirection
extractor recognizes the resulting bare word `>` as a stdout redirection
operator, diverting the stream to `out` — refuting the claim that a
quoted word is never recognized as a redirection operator. -/
theorem c1_counterexample :
    parseInput "echo '>' out" = ("echo", some [">", "out"]) ∧
    handleRedirect (some [">", "out"]) = ([], some ("out", appendCreate), none) :=
  ⟨rfl, rfl⟩

/-- C1 (amended): the redirection extractor recognizes a word as an
operator exactly when the word, after quote and escape removal, equals one
of `>`, `1>`, `>>`, `1>>`, `2>`, `2>>` — quoting does not protect an
operator word, since the tokenizer erases all quoting before extraction
(first conjunct: the quoted `>` of `echo '>' out` still diverts stdout);
any word not equal to an operator string never diverts a stream and is
kept as a clean argument (second conjunct). -/
theorem c1_theorem :
    handleRedirect (parseInput "echo '>' out").2 = ([], some ("out", appendCreate), none) ∧
    (∀ (w : String) (rest acc : List String) (so se : Option OutFile),
      w ∉ stdoutOps → w ∉ stderrOps →
      redirectLoop (w :: rest) acc so se = redirectLoop rest (acc ++ [w]) so se) :=
  ⟨rfl, fun w rest acc so se h1 h2 => redirectLoop_cons_other w rest acc so se h1 h2⟩

/-- C1 witness: the non-operator word `x` is passed through to the clean
arguments. -/
theorem c1_witness :
    redirectLoop ["x"] [] none none = redirectLoop [] ["x"] none none :=
  c1_theorem.2 "x" [] [] none none (by decide) (by decide)

/-- C2 counterexample: in the input `a\ b` the backslash stands outside
any quoting, yet the command word comes out as `a\` — the backslash is
retained and the following space still terminates the word, because
`parse_cmd` (unlike `parse_args`) has no backslash handling at all.  This
refutes the claim for the first (command) word. -/
theorem c2_counterexample : parseInput "a\\ b" = ("a\\", some ["b"]) := rfl

/-- C2 (amended): backslash escaping applies to argument words only.  In
`parse_args`, outside any quoting and with no escape pending, a backslash
escapes exactly the next character, which is appended literally with the
backslash itself not retained (first conjunct); the command-word parser
`parse_cmd` has no escape handling and appends a backslash literally to
the command word (second conjunct). -/
theorem c2_theorem :
    (∀ (st : ArgState) (c : Char),
      st.inSingle = false → st.inDouble = false → st.escapeNext = false →
      argStep (argStep st '\\') c = { st with curr := c :: st.curr }) ∧
    (∀ st : CmdState, st.done = false →
      cmdStep st '\\' = { st with cmd := '\\' :: st.cmd }) := by
  constructor
  · intro st c h1 h2 h3
    cases st
    subst h1 h2 h3
    rfl
  · intro st h
    cases st
    subst h
    rfl

/-- C2 witness: from the initial state, a backslash then `x` yields the
accumulator `x` with no backslash, and the command parser keeps a
backslash literally. -/
theorem c2_witness :
    argStep (argStep initArgState '\\') 'x' = { initArgState with curr := ['x'] } ∧
    cmdStep initCmdState '\\' = { initCmdState with cmd := ['\\'] } :=
  ⟨c2_theorem.1 initArgState 'x' rfl rfl rfl, c2_theorem.2 initCmdState rfl⟩

/-- C3: the line `echo  a   'b c'  "d\"e"` tokenizes to the command
`echo` and the argument words `a`, `b c`, `d"e` in that order, and with
no redirection operators present the echo builtin emits exactly
`a b c d"e` followed by a newline, addressed to the shell's own stdout
(destination `none`). -/
theorem c3_theorem :
    parseInput "echo  a   'b c'  \"d\\\"e\"" = ("echo", some ["a", "b c", "d\"e"]) ∧
    echo (some ["a", "b c", "d\"e"]) = (none, "a b c d\"e\n") :=
  ⟨rfl, rfl⟩

/-- C4 counterexample: with `$HOME` unset, `cd /tmp` — an absolute-path
target — fails with the environment-variable-not-found error, refuting
the claim that an absolute-path `cd` never does so: the source looks up
`$HOME` with `?` before even inspecting the argument. -/
theorem c4_counterexample :
    cdResolve none "/" (some ["/tmp"]) = .error (.EnvVarNotFound "HOME") := rfl

/-- C4 (amended): the cd builtin requires `$HOME` unconditionally.  When
`$HOME` is unset, every cd invocation — whatever its argument — fails
with the environment-variable-not-found error (first conjunct); when
`$HOME` is set, an absolute-path argument is used as-is and resolution
succeeds (second conjunct). -/
theorem c4_theorem :
    (∀ (cwd : String) (args : Option (List String)),
      cdResolve none cwd args = .error (.EnvVarNotFound "HOME")) ∧
    (∀ (h cwd p : String) (rest : List String), pathIsAbsolute p = true →
      cdResolve (some h) cwd (some (p :: rest)) = .ok p) := by
  constructor
  · intro cwd args; rfl
  · intro h cwd p rest hp
    simp [cdResolve, absolute_not_tilde p hp, hp]

/-- C4 witness: with `$HOME` unset, `cd /x` fails with the environment
error; with `$HOME` set, `cd /tmp` resolves to `/tmp` as-is. -/
theorem c4_witness :
    cdResolve none "/w" (some ["/x"]) = .error (.EnvVarNotFound "HOME") ∧
    cdResolve (some "/home/u") "/w" (some ["/tmp"]) = .ok "/tmp" :=
  ⟨c4_theorem.1 "/w" (some ["/x"]), c4_theorem.2 "/home/u" "/w" "/tmp" [] rfl⟩

/-- C5 counterexample: the line `type` tokenizes with no argument list at
all (the tokenizer wraps an empty argument vector as `None`), and the
type builtin on `None` returns `Ok` with no output — it silently
succeeds, refuting the claim that zero arguments is reported as the
error "arguments are required". -/
theorem c5_counterexample :
    parseInput "type" = ("type", none) ∧
    typeBuiltin (fun _ => none) none = .ok none :=
  ⟨rfl, rfl⟩

/-- C5 (amended): invoking the type builtin with zero arguments silently
succeeds: the builtin returns `Ok` with no output for an absent argument
list (first conjunct), and the tokenizer never produces a present-but-
empty argument vector (second conjunct), so the builtin's "too few
arguments" arm — the only error arm for a missing first argument — is
unreachable, and the "arguments are required" message is never emitted. -/
theorem c5_theorem :
    (∀ findExe : String → Option String, typeBuiltin findExe none = .ok none) ∧
    (∀ cs : List Char, parseArgs cs = none ∨ ∃ a l, parseArgs cs = some (a :: l)) := by
  constructor
  · intro f; rfl
  · intro cs
    cases hl : (saveArg (parseArgsRun cs)).args with
    | nil => exact Or.inl (by simp [parseArgs, hl])
    | cons a l => exact Or.inr ⟨a, l, by simp [parseArgs, hl]⟩

/-- C6: every destination the redirection extractor records — for either
stream, under truncating-form and appending-form operators alike — is
opened with `append(true).create(true)` and `truncate` left `false`, so
the destination file's prior content is never truncated. -/
theorem c6_theorem :
    ∀ (args : Option (List String)) (f : OutFile),
      ((handleRedirect args).2.1 = some f ∨ (handleRedirect args).2.2 = some f) →
      f.2 = appendCreate := by
  intro args f h
  cases args with
  | none => rcases h with h | h <;> exact Option.noConfusion h
  | some l =>
    have hm := redirectLoop_modes l [] none none
      (fun g hg => Option.noConfusion hg) (fun g hg => Option.noConfusion hg)
    rcases h with h | h
    · exact hm.1 f h
    · exact hm.2 f h

/-- C6 witness: the destination recorded for `> out` — a truncating-form
operator — carries the append-and-create mode. -/
theorem c6_witness : (("out", appendCreate) : OutFile).2 = appendCreate :=
  c6_theorem (some [">", "out"]) ("out", appendCreate) (Or.inl rfl)

/-- C7: the exit builtin with a first argument that fails integer parsing
reports the invalid-exit-code error and leaves the process running (first
conjunct); with no argument it terminates the process with status 0
(second conjunct); with a first argument parsing to the integer n it
terminates the process with status n (third conjunct). -/
theorem c7_theorem :
    (∀ (s : String) (rest : List String), parseI32 s = none →
      exitBuiltin (some (s :: rest)) = .running (some .InvalidExitCode)) ∧
    exitBuiltin none = .terminate 0 ∧
    (∀ (s : String) (n : Int) (rest : List String), parseI32 s = some n →
      exitBuiltin (some (s :: rest)) = .terminate n) := by
  refine ⟨fun s rest h => ?_, rfl, fun s n rest h => ?_⟩
  · simp [exitBuiltin, h]
  · simp [exitBuiltin, h]

/-- C7 witness: `exit abc` keeps the process running with the
invalid-exit-code error, `exit` terminates with status 0, and `exit 7`
terminates with status 7. -/
theorem c7_witness :
    exitBuiltin (some ["abc"]) = .running (some .InvalidExitCode) ∧
    exitBuiltin none = .terminate 0 ∧
    exitBuiltin (some ["7"]) = .terminate 7 :=
  ⟨c7_theorem.1 "abc" [] rfl, c7_theorem.2.1, c7_theorem.2.2 "7" 7 [] rfl⟩

/-- C8: when the scan reaches a redirection operator as the final word,
no destination ends up recorded for that operator's stream (the
assignment from the exhausted iterator is `none`), no error is raised
(with no following word no file open is even attempted), and the clean
arguments accumulated from the remaining words pass through unchanged. -/
theorem c8_theorem :
    ∀ (acc : List String) (so se : Option OutFile) (op : String),
      (op ∈ stdoutOps → redirectLoop [op] acc so se = (acc, none, se)) ∧
      (op ∈ stderrOps → redirectLoop [op] acc so se = (acc, so, none)) := by
  intro acc so se op
  exact ⟨fun h => redirectLoop_last_stdout op acc so se h,
         fun h => redirectLoop_last_stderr op acc so se h⟩

/-- C8 witness: a trailing `>` leaves no stdout destination while the
accumulated clean argument survives, and a trailing `2>` leaves no stderr
destination while an earlier stdout destination survives. -/
theorem c8_witness :
    redirectLoop [">"] ["a"] (some ("o", appendCreate)) none = (["a"], none, none) ∧
    redirectLoop ["2>"] ["a"] (some ("o", appendCreate)) none =
      (["a"], some ("o", appendCreate), none) :=
  ⟨( c8_theorem ["a"] (some ("o", appendCreate)) none ">").1 (by decide),
   ( c8_theorem ["a"] (some ("o", appendCreate)) none "2>").2 (by decide)⟩

/-- C9: throughout every tokenizer pass — i.e. in the state reached after
any character sequence, which by `List.foldl` over a prefix is every
intermediate state of any longer input — the single-quote and
double-quote flags of the argument scanner are never simultaneously true,
its escape-pending flag is never set while the single-quote flag is set,
and the two quote flags of the command-word scanner are never
simultaneously true. -/
theorem c9_theorem (cs : List Char) :
    ((parseArgsRun cs).inSingle && (parseArgsRun cs).inDouble) = false ∧
    ((parseArgsRun cs).escapeNext && (parseArgsRun cs).inSingle) = false ∧
    ((parseCmdRun cs).inSingle && (parseCmdRun cs).inDouble) = false := by
  have ha := argInv_fold cs initArgState ⟨rfl, rfl⟩
  have hc := cmdInv_fold cs initCmdState rfl
  exact ⟨ha.1, ha.2, hc⟩

/-- C10: destination assignment is last-wins.  An operator followed by a
word sets its stream's destination to exactly that word's file,
discarding whatever destination was previously recorded (first two
conjuncts, for stdout and stderr); an operator with no following word
resets its stream's destination back to none, again discarding any
previously recorded destination (last two conjuncts). -/
theorem c10_theorem :
    ∀ (acc : List String) (so se : Option OutFile) (op p : String) (rest : List String),
      (op ∈ stdoutOps → redirectLoop (op :: p :: rest) acc so se =
        redirectLoop rest acc (some (p, appendCreate)) se) ∧
      (op ∈ stderrOps → redirectLoop (op :: p :: rest) acc so se =
        redirectLoop rest acc so (some (p, appendCreate))) ∧
      (op ∈ stdoutOps → (redirectLoop [op] acc so se).2.1 = none) ∧
      (op ∈ stderrOps → (redirectLoop [op] acc so se).2.2 = none) := by
  intro acc so se op p rest
  refine ⟨fun h => ?_, fun h => ?_, fun h => ?_, fun h => ?_⟩
  · exact redirectLoop_cons_stdout op p rest acc so se h
  · exact redirectLoop_cons_stderr op p rest acc so se h
  · rw [redirectLoop_last_stdout op acc so se h]
  · rw [redirectLoop_last_stderr op acc so se h]

/-- C10 witness: `> b` replaces a previously recorded stdout destination
`a` with `b`; `2> f` replaces stderr destination `e` with `f`; a trailing
`>` resets a recorded stdout destination to none; a trailing `2>` resets
a recorded stderr destination to none. -/
theorem c10_witness :
    redirectLoop [">", "b"] [] (some ("a", appendCreate)) none =
      redirectLoop [] [] (some ("b", appendCreate)) none ∧
    redirectLoop ["2>", "f"] [] none (some ("e", appendCreate)) =
      redirectLoop [] [] none (some ("f", appendCreate)) ∧
    (redirectLoop [">"] [] (some ("a", appendCreate)) none).2.1 = none ∧
    (redirectLoop ["2>"] [] none (some ("e", appendCreate))).2.2 = none :=
  ⟨(c10_theorem [] (some ("a", appendCreate)) none ">" "b" []).1 (by decide),
   (c10_theorem [] none (some ("e", appendCreate)) "2>" "f" []).2.1 (by decide),
   (c10_theorem [] (some ("a", appendCreate)) none ">" "b" []).2.2.1 (by decide),
   (c10_theorem [] none (some ("e", appendCreate)) "2>" "f" []).2.2.2 (by decide)⟩

end Shell
